import Mathlib

/-!
Verification of the yO3-platform client-side security core against its
natural-language specification.

The development shallowly embeds the TypeScript source:

* src/frontend/src/workers/crypto.worker.ts — the seed-strategy decryption
  worker (two variants in the file: the AES worker with INIT/DECRYPT and the
  stream-processing worker with INIT/PROCESS);
* src/unnamed/part_008 — the master-key data worker (init/process);
* src/frontend/src/obj.ts (KeyStorageService) — the IndexedDB-backed key store;
* src/unnamed/part_007 (VideoPlayer) — the seed-strategy playback orchestrator;
* src/frontend/src/components/SecureVideoPlayer.tsx — the master-key playback
  orchestrator and its worker life cycle;
* src/frontend/src/components/DevicePairing.tsx — the pairing coordinator.

Platform primitives that are not repository code are abstracted by explicit
parameters: AES-GCM authenticated decryption (crypto.subtle.decrypt) is a
function returning either the whole plaintext or an error message, and PBKDF2
key derivation (crypto.subtle.deriveKey) is a constructor recording the inputs
that determine the derived key (seed and salt; the iteration count, hash and
key length are fixed constants in the source).
-/

/-- Byte buffers (ArrayBuffer contents) are modelled as lists of naturals. -/
abbrev Bytes := List Nat

/-- Abstraction of a key derived by crypto.subtle.deriveKey with PBKDF2,
100000 iterations, SHA-256, for AES-GCM 256.  The derived key is a function of
the seed and the salt; the remaining derivation parameters are fixed in the
source, so the pair determines the key. -/
structure DerivedKey where
  seed : String
  salt : String
deriving DecidableEq, Repr

/-- The PBKDF2 derivation step of the workers, abstracted to its determining
inputs. -/
def pbkdf2Sha256Key (seed salt : String) : DerivedKey := ⟨seed, salt⟩

/-- Abstraction of crypto.subtle.decrypt for AES-GCM (tag length 128) with a
derived key: given key, 12-byte IV and ciphertext-plus-tag, it returns either
the entire verified plaintext or an error message (authentication failure). -/
abbrev Gcm := DerivedKey → Bytes → Bytes → Except String Bytes

/-- Abstraction of crypto.subtle.decrypt for AES-GCM with a raw imported key
(the master-key data worker imports raw key bytes). -/
abbrev RawGcm := Bytes → Bytes → Bytes → Except String Bytes

/-- The static salt of the AES decryption worker
(crypto.worker.ts, initializeCrypto). -/
def aesSalt : String := "yo3Surveillance-AES-Salt-2024"

/-- The static salt of the stream-processing worker
(crypto.worker.ts second variant, initializeProcessor). -/
def streamSalt : String := "yo3Surveillance-Stream-Salt-2024"

/-- Module-level state of the AES decryption worker: the two top-level
variables seedKey and cryptoKey of crypto.worker.ts. -/
structure CryptoWorkerState where
  seedKey : Option String
  cryptoKey : Option DerivedKey
deriving DecidableEq, Repr

/-- Worker state at load time: both variables are null. -/
def initialCryptoState : CryptoWorkerState := ⟨none, none⟩

/-- Embedding of initializeCrypto (crypto.worker.ts lines 40-72): reject a
seed that is falsy or shorter than 32 characters, otherwise assign the seed to
the module variable seedKey and the PBKDF2-derived key to cryptoKey. -/
def initializeCrypto (st : CryptoWorkerState) (seed : String) :
    Except String CryptoWorkerState :=
  if seed = "" ∨ seed.length < 32 then
    Except.error "Seed key must be at least 32 characters"
  else
    Except.ok { st with
      seedKey := some seed
      cryptoKey := some (pbkdf2Sha256Key seed aesSalt) }

/-- Embedding of decryptData (crypto.worker.ts lines 80-107): fail if no key
is initialized; otherwise split the buffer into the 12-byte IV and the
ciphertext-plus-tag and run authenticated decryption, wrapping a platform
failure message. -/
def decryptData (gcm : Gcm) (st : CryptoWorkerState) (buf : Bytes) :
    Except String Bytes :=
  match st.cryptoKey with
  | none => Except.error "Crypto key not initialized. Call INIT first."
  | some k =>
    match gcm k (buf.take 12) (buf.drop 12) with
    | Except.ok pt => Except.ok pt
    | Except.error m =>
        Except.error ("Decryption failed: " ++ m ++ ". Verify seed key is correct.")

/-- Inbound messages of the AES decryption worker.  The catch-all constructor
covers any message whose type is neither INIT nor DECRYPT (the default branch
of the switch). -/
inductive CMsgIn where
  | init (seedKey : String)
  | decrypt (data : Bytes)
  | other (msgType : String)
deriving DecidableEq, Repr

/-- Outbound messages of the AES decryption worker. -/
inductive CMsgOut where
  | initSuccess
  | decryptSuccess (data : Bytes)
  | error (msg : String)
deriving DecidableEq, Repr

/-- Embedding of the onmessage handler of crypto.worker.ts (lines 10-35):
dispatch on the message type; any thrown error is caught and posted back as an
ERROR message, so the handler always replies with exactly one message and no
exception crosses the worker boundary. -/
def cryptoOnMessage (gcm : Gcm) (st : CryptoWorkerState) (m : CMsgIn) :
    CryptoWorkerState × CMsgOut :=
  match m with
  | .init s =>
    match initializeCrypto st s with
    | .ok st2 => (st2, .initSuccess)
    | .error e => (st, .error e)
  | .decrypt d =>
    match decryptData gcm st d with
    | .ok pt => (st, .decryptSuccess pt)
    | .error e => (st, .error e)
  | .other t => (st, .error ("Unknown message type: " ++ t))

/-- Sequential processing of a list of inbound messages by the AES worker. -/
def runCryptoWorker (gcm : Gcm) (st : CryptoWorkerState) (msgs : List CMsgIn) :
    CryptoWorkerState :=
  msgs.foldl (fun s m => (cryptoOnMessage gcm s m).1) st

/-- Module-level state of the stream-processing worker variant: the top-level
variables seedKey and processorKey. -/
structure StreamWorkerState where
  seedKey : Option String
  processorKey : Option DerivedKey
deriving DecidableEq, Repr

/-- Stream worker state at load time. -/
def initialStreamState : StreamWorkerState := ⟨none, none⟩

/-- Embedding of initializeProcessor (crypto.worker.ts second variant, lines
165-197): same guard and derivation as initializeCrypto but with the stream
salt. -/
def initializeProcessor (st : StreamWorkerState) (seed : String) :
    Except String StreamWorkerState :=
  if seed = "" ∨ seed.length < 32 then
    Except.error "Seed key must be at least 32 characters"
  else
    Except.ok { st with
      seedKey := some seed
      processorKey := some (pbkdf2Sha256Key seed streamSalt) }

/-- Embedding of processData (stream worker variant): as decryptData, with the
processor key. -/
def processData (gcm : Gcm) (st : StreamWorkerState) (buf : Bytes) :
    Except String Bytes :=
  match st.processorKey with
  | none => Except.error "Processor key not initialized. Call INIT first."
  | some k =>
    match gcm k (buf.take 12) (buf.drop 12) with
    | Except.ok pt => Except.ok pt
    | Except.error m =>
        Except.error ("Processing failed: " ++ m ++ ". Verify seed key is correct.")

/-- Inbound messages of the stream-processing worker. -/
inductive SMsgIn where
  | init (seedKey : String)
  | process (data : Bytes)
  | other (msgType : String)
deriving DecidableEq, Repr

/-- Outbound messages of the stream-processing worker. -/
inductive SMsgOut where
  | initSuccess
  | processSuccess (data : Bytes)
  | error (msg : String)
deriving DecidableEq, Repr

/-- Embedding of the onmessage handler of the stream-processing worker. -/
def streamOnMessage (gcm : Gcm) (st : StreamWorkerState) (m : SMsgIn) :
    StreamWorkerState × SMsgOut :=
  match m with
  | .init s =>
    match initializeProcessor st s with
    | .ok st2 => (st2, .initSuccess)
    | .error e => (st, .error e)
  | .process d =>
    match processData gcm st d with
    | .ok pt => (st, .processSuccess pt)
    | .error e => (st, .error e)
  | .other t => (st, .error ("Unknown message type: " ++ t))

/-- A record of the IndexedDB object store named keys: the object put by
storeMasterKey, with the record id folded into the map key. -/
structure KeyRecord where
  keyData : Bytes
  createdAt : Nat
deriving DecidableEq, Repr

/-- The IndexedDB object store keyed by record id (keyPath id).  put is
whole-record replacement by key, get is lookup by key, delete removes the key
and always succeeds, matching IDBObjectStore semantics. -/
def KeyDB := String → Option KeyRecord

/-- The record id under which KeyStorageService files the master key of a device. -/
def masterKeyId (deviceId : String) : String := "master-key-" ++ deviceId

/-- Embedding of KeyStorageService.storeMasterKey (obj.ts lines 821-837):
store.put of the record with id master-key-deviceId, the key bytes and a
creation timestamp. -/
def storeMasterKey (db : KeyDB) (keyData : Bytes) (deviceId : String)
    (now : Nat) : KeyDB :=
  fun k => if k = masterKeyId deviceId then some ⟨keyData, now⟩ else db k

/-- Embedding of KeyStorageService.getMasterKey (obj.ts lines 839-853):
store.get of master-key-deviceId, resolving the record keyData when present
and null otherwise. -/
def getMasterKey (db : KeyDB) (deviceId : String) : Option Bytes :=
  (db (masterKeyId deviceId)).map KeyRecord.keyData

/-- Embedding of KeyStorageService.deleteMasterKey (obj.ts lines 855-866):
store.delete of master-key-deviceId; IDB delete succeeds whether or not the
key is present. -/
def deleteMasterKey (db : KeyDB) (deviceId : String) : KeyDB :=
  fun k => if k = masterKeyId deviceId then none else db k

/-- The worker configuration record of the master-key data worker
(src/unnamed/part_008). -/
structure WorkerConfig where
  algorithm : String
  keySize : Nat
deriving DecidableEq, Repr

/-- Inbound message shape of the master-key data worker: a type string and
optional fields, mirroring the ProcessMessage interface (each field may be
absent). -/
structure ProcessMessage where
  msgType : String
  encodedData : Option Bytes
  dataKey : Option Bytes
  config : Option WorkerConfig
deriving DecidableEq, Repr

/-- Outbound messages of the master-key data worker. -/
inductive DMsgOut where
  | ready (message : String)
  | processed (data : Bytes) (timestamp : Nat)
  | error (msg : String)
deriving DecidableEq, Repr

/-- Embedding of processEncodedData (part_008 lines 56-86): import the raw
master key, split off the 12-byte IV and decrypt the remainder; a platform
decryption failure is a thrown error. -/
def processEncodedData (gcm : RawGcm) (encodedData dataKey : Bytes) :
    Except String Bytes :=
  gcm dataKey (encodedData.take 12) (encodedData.drop 12)

/-- Embedding of the onmessage handler of the master-key data worker
(part_008 lines 23-51).  On an init message it stores the supplied config (or
keeps the current one) and replies ready.  On a process message it replies
only when both encodedData and dataKey are present (the truthiness guard);
otherwise it falls through the handler and posts nothing.  Any other type
also posts nothing.  A thrown error inside the process branch is caught and
posted as an error reply.  The result pairs the new config with the optional
reply (none means no message is posted at all). -/
def dataWorkerOnMessage (gcm : RawGcm) (cfg : WorkerConfig) (now : Nat)
    (m : ProcessMessage) : WorkerConfig × Option DMsgOut :=
  if m.msgType = "init" then
    (m.config.getD cfg, some (.ready "Worker initialized with AES-256-GCM"))
  else if m.msgType = "process" then
    match m.encodedData, m.dataKey with
    | some ed, some dk =>
      match processEncodedData gcm ed dk with
      | .ok pt => (cfg, some (.processed pt now))
      | .error e => (cfg, some (.error e))
    | _, _ => (cfg, none)
  else (cfg, none)

/-- Effects performed synchronously by initializePlayer of the seed-strategy
orchestrator (src/unnamed/part_007 lines 30-69) on one invocation. -/
structure PlayerRun where
  workerCreated : Bool
  initSent : Option String
  fetchIssued : Bool
  processSent : Bool
  syncError : Option String
deriving DecidableEq, Repr

/-- Embedding of initializePlayer together with fetchAndDecryptStream
(part_007 lines 30-93).  The function unconditionally creates the worker,
posts INIT with the given seed and issues the network fetch; when the fetch
succeeds it posts PROCESS with the fetched bytes, when it fails the wrapping
catch records the error and invokes the error callback.  No validation of the
seed happens on this path: a bad seed is only rejected later, inside the
worker. -/
def initializePlayer (seedKey : String) (fetchOk : Bool) : PlayerRun :=
  { workerCreated := true
    initSent := some seedKey
    fetchIssued := true
    processSent := fetchOk
    syncError := if fetchOk then none else some "Failed to initialize player" }

/-- UI state updated by handleWorkerMessage of part_007. -/
structure PlayerUi where
  errorMsg : Option String
  onErrorCalled : Bool
  videoSet : Bool
deriving DecidableEq, Repr

/-- Embedding of handleWorkerMessage (part_007 lines 95-124): INIT_SUCCESS is
only logged, PROCESS_SUCCESS attaches the decoded media, ERROR records the
reason and invokes the onError callback of the caller. -/
def handleWorkerMessage (ui : PlayerUi) (m : SMsgOut) : PlayerUi :=
  match m with
  | .initSuccess => ui
  | .processSuccess _ => { ui with videoSet := true }
  | .error e => { ui with errorMsg := some e, onErrorCalled := true }

/-- Status values of SecureVideoPlayer. -/
inductive SvpStatus where
  | loading
  | processing
  | ready
  | error
deriving DecidableEq, Repr

/-- State of one SecureVideoPlayer instance: the workers it has created and
not yet terminated (by identifier), its workerRef, a fresh-identifier counter
and the visible status. -/
structure SvpState where
  aliveWorkers : List Nat
  workerRef : Option Nat
  nextId : Nat
  status : SvpStatus
  errorMsg : Option String
deriving DecidableEq, Repr

/-- SecureVideoPlayer state before the mount effect runs. -/
def svpInit : SvpState :=
  { aliveWorkers := [], workerRef := none, nextId := 0
    status := .loading, errorMsg := none }

/-- Embedding of loadAndProcessVideo (SecureVideoPlayer.tsx lines 39-101).
It sets status loading, creates a fresh worker and overwrites workerRef with
it without terminating the worker the ref previously held, then looks up the
master key (missing key throws) and fetches the ciphertext (failure throws);
the catch sets status error.  No path of this function terminates a worker. -/
def loadAndProcessVideo (st : SvpState) (keyFound : Bool) (fetchOk : Bool) :
    SvpState :=
  let w := st.nextId
  let st1 := { st with
    status := SvpStatus.loading
    aliveWorkers := w :: st.aliveWorkers
    workerRef := some w
    nextId := w + 1 }
  if keyFound = false then
    { st1 with
      status := .error
      errorMsg := some "Master key not found. Please pair device first." }
  else if fetchOk = false then
    { st1 with status := .error, errorMsg := some "Failed to fetch video" }
  else
    { st1 with status := .processing }

/-- Embedding of the useEffect cleanup (SecureVideoPlayer.tsx lines 28-36):
terminate the worker currently held by workerRef, if any.  The ref is not
cleared by the source, and only the referenced worker is terminated. -/
def svpEffectCleanup (st : SvpState) : SvpState :=
  match st.workerRef with
  | some w => { st with aliveWorkers := st.aliveWorkers.erase w }
  | none => st

/-- Changing videoId or deviceId re-runs the effect: React runs the previous
cleanup and then loadAndProcessVideo again. -/
def svpReconfigure (st : SvpState) (keyFound fetchOk : Bool) : SvpState :=
  loadAndProcessVideo (svpEffectCleanup st) keyFound fetchOk

/-- The Retry button (SecureVideoPlayer.tsx line 123) invokes
loadAndProcessVideo directly, with no cleanup step. -/
def svpRetry (st : SvpState) (keyFound fetchOk : Bool) : SvpState :=
  loadAndProcessVideo st keyFound fetchOk

/-- Pairing session status values of DevicePairing. -/
inductive PairStatus where
  | idle
  | pairing
  | paired
  | error
deriving DecidableEq, Repr

/-- Visible state of the DevicePairing component. -/
structure PairUi where
  status : PairStatus
  errorMsg : String
deriving DecidableEq, Repr

/-- DevicePairing state before any interaction. -/
def pairInit : PairUi := { status := .idle, errorMsg := "" }

/-- The synchronous prefix of startPairing (DevicePairing.tsx lines 19-23):
set status pairing and clear the error.  The returned second component is the
status value captured by the closures startPairing creates: React state reads
inside the handlers refer to the render that invoked startPairing, not to the
current state, so the captured value is the status at click time (idle from
the start button, error from the retry button) and never pairing. -/
def startPairingBegin (ui : PairUi) : PairUi × PairStatus :=
  ({ status := .pairing, errorMsg := "" }, ui.status)

/-- Embedding of the ws.onerror handler (DevicePairing.tsx lines 83-87):
unconditionally record the connection failure and move to error. -/
def wsOnError (_ui : PairUi) : PairUi :=
  { status := .error, errorMsg := "Connection to device failed" }

/-- Embedding of the ws.onclose handler (DevicePairing.tsx lines 89-94): move
to error only when the captured status is pairing and the close was unclean.
The status the guard reads is the stale captured value, not the live one. -/
def wsOnClose (captured : PairStatus) (wasClean : Bool) (ui : PairUi) :
    PairUi :=
  if captured = .pairing ∧ wasClean = false then
    { status := .error, errorMsg := "Connection closed unexpectedly" }
  else ui

/-- Events of the seed-strategy session between the part_007 orchestrator and
its stream worker: the orchestrator posting INIT and PROCESS, the worker
dequeuing and handling each, and the orchestrator receiving the replies of the worker. -/
inductive Ev where
  | sendInit
  | sendProcess
  | wHandleInit
  | wHandleProcess
  | recvInitAck
  | recvProcResult
deriving DecidableEq, Repr

/-- Messages queued from the orchestrator to the worker. -/
inductive PMsg where
  | init
  | process
deriving DecidableEq, Repr

/-- Messages queued from the worker back to the orchestrator. -/
inductive AMsg where
  | initAck
  | procResult
deriving DecidableEq, Repr

/-- Interleaving state of one seed-strategy playback session: the program
counter of initializePlayer (0 before posting INIT, 1 awaiting the fetch,
2 after posting PROCESS), the two FIFO message queues, and the event trace. -/
structure Sys where
  mpc : Nat
  wq : List PMsg
  mq : List AMsg
  trace : List Ev
deriving DecidableEq, Repr

/-- Session state at the start of initializePlayer. -/
def sysInit : Sys := { mpc := 0, wq := [], mq := [], trace := [] }

/-- Scheduler choices: advance the orchestrator, let the worker handle its
next queued message, or deliver the next worker reply to the player
message handler. -/
inductive Choice where
  | mainStep
  | workerStep
  | deliverStep
deriving DecidableEq, Repr

/-- One scheduling step of the session.  The orchestrator first posts INIT
(program order of initializePlayer), then, once the fetch resolves, posts
PROCESS; it never waits for the INIT acknowledgment in between.  The worker
dequeues in FIFO order and enqueues a reply for each message.  Delivery hands
the next queued worker reply to handleWorkerMessage. -/
def stepC (s : Sys) (c : Choice) : Sys :=
  match c with
  | .mainStep =>
    match s.mpc with
    | 0 => { s with
             mpc := 1
             wq := s.wq ++ [PMsg.init]
             trace := s.trace ++ [Ev.sendInit] }
    | 1 => { s with
             mpc := 2
             wq := s.wq ++ [PMsg.process]
             trace := s.trace ++ [Ev.sendProcess] }
    | _ => s
  | .workerStep =>
    match s.wq with
    | [] => s
    | PMsg.init :: r =>
      { s with
        wq := r
        mq := s.mq ++ [AMsg.initAck]
        trace := s.trace ++ [Ev.wHandleInit] }
    | PMsg.process :: r =>
      { s with
        wq := r
        mq := s.mq ++ [AMsg.procResult]
        trace := s.trace ++ [Ev.wHandleProcess] }
  | .deliverStep =>
    match s.mq with
    | [] => s
    | AMsg.initAck :: r =>
      { s with mq := r, trace := s.trace ++ [Ev.recvInitAck] }
    | AMsg.procResult :: r =>
      { s with mq := r, trace := s.trace ++ [Ev.recvProcResult] }

/-- Run the session under a given schedule. -/
def execSched (cs : List Choice) : Sys := cs.foldl stepC sysInit

/-- Scan of an event trace: true when, before the first occurrence of b, an a
occurs, or neither a nor b occurs at all. -/
def precedes (a b : Ev) : List Ev → Bool
  | [] => true
  | e :: t => if e = b then false else if e = a then true else precedes a b t

/-- Scan of an event trace: true when an a occurs strictly before any b. -/
def committed (a b : Ev) : List Ev → Bool
  | [] => false
  | e :: t => if e = b then false else if e = a then true else committed a b t

/-- True when no message of the list is an INIT that passes the
initializeCrypto guard, i.e. every INIT carries an empty or short seed. -/
def noValidInit (msgs : List CMsgIn) : Bool :=
  msgs.all fun m =>
    match m with
    | CMsgIn.init s => decide (s = "" ∨ s.length < 32)
    | _ => true

/-- A concrete seed of exactly 32 characters, admissible for INIT. -/
def seed32 : String := "0123456789abcdef0123456789abcdef"

/-- Inductive invariant of the session scheduling model, on the orchestrator
program counter and the trace: before the orchestrator has advanced, no
PROCESS has been posted; afterwards, the posting of INIT is committed before
any posting of PROCESS in the trace. -/
def sysInvAt (m : Nat) (t : List Ev) : Prop :=
  if m = 0 then Ev.sendProcess ∉ t
  else committed Ev.sendInit Ev.sendProcess t = true

/-- The invariant read off a session state. -/
def sysInv (s : Sys) : Prop := sysInvAt s.mpc s.trace

/-- C6: for every device id and key byte sequence, storeMasterKey followed by
getMasterKey on the same device id returns exactly the bytes written. -/
theorem store_get_roundtrip (db : KeyDB) (key : Bytes) (deviceId : String)
    (now : Nat) :
    getMasterKey (storeMasterKey db key deviceId now) deviceId = some key := by
  simp [getMasterKey, storeMasterKey]

/-- C7: deleteMasterKey followed by getMasterKey on the same device id
returns null, and deleting twice gives the same store as deleting once, so
deleting an absent key is not an error (the operation is total and
idempotent). -/
theorem delete_get_none_and_idempotent (db : KeyDB) (deviceId : String) :
    getMasterKey (deleteMasterKey db deviceId) deviceId = none ∧
    deleteMasterKey (deleteMasterKey db deviceId) deviceId =
      deleteMasterKey db deviceId := by
  constructor
  · simp [getMasterKey, deleteMasterKey]
  · funext k
    by_cases h : k = masterKeyId deviceId <;> simp [deleteMasterKey, h]

/-- C10: the master-key data worker posts a reply exactly when the message is
a complete request: an init message, or a process message carrying both the
encoded data and the key; incomplete process messages and unknown types get
no reply at all. -/
theorem data_worker_reply_iff_complete (gcm : RawGcm) (cfg : WorkerConfig)
    (now : Nat) (m : ProcessMessage) :
    ((dataWorkerOnMessage gcm cfg now m).2).isSome = true ↔
      (m.msgType = "init" ∨
        (m.msgType = "process" ∧ m.encodedData.isSome = true ∧
          m.dataKey.isSome = true)) := by
  unfold dataWorkerOnMessage
  by_cases h1 : m.msgType = "init"
  · simp [h1]
  · by_cases h2 : m.msgType = "process"
    · cases hed : m.encodedData with
      | none => simp [h1, h2, hed]
      | some ed =>
        cases hdk : m.dataKey with
        | none => simp [h1, h2, hed, hdk]
        | some dk =>
          cases hp : processEncodedData gcm ed dk <;> simp [h1, h2, hed, hdk, hp]
    · simp [h1, h2]

/-- Processing any list of messages in which every INIT has an empty or short
seed leaves the AES worker state unchanged: only a successful INIT writes the
module variables. -/
theorem runCryptoWorker_no_valid_init (gcm : Gcm) (msgs : List CMsgIn)
    (st : CryptoWorkerState) (h : noValidInit msgs = true) :
    runCryptoWorker gcm st msgs = st := by
  induction msgs generalizing st with
  | nil => rfl
  | cons m t ih =>
    rw [noValidInit, List.all_cons, Bool.and_eq_true] at h
    obtain ⟨hm, ht⟩ := h
    have hstep : (cryptoOnMessage gcm st m).1 = st := by
      cases m with
      | init s =>
        have hg : s = "" ∨ s.length < 32 := of_decide_eq_true hm
        simp [cryptoOnMessage, initializeCrypto, hg]
      | decrypt d =>
        cases hd : decryptData gcm st d <;> simp [cryptoOnMessage, hd]
      | other ty => rfl
    show runCryptoWorker gcm (cryptoOnMessage gcm st m).1 t = st
    rw [hstep]
    exact ih st ht

/-- C9: as long as no INIT with an admissible seed has been processed, a
DECRYPT message is answered with the uninitialized-key ERROR and never with a
DECRYPT_SUCCESS; the null-key guard makes the handler total. -/
theorem decrypt_before_init_errors (gcm : Gcm) (msgs : List CMsgIn)
    (buf : Bytes) (h : noValidInit msgs = true) :
    (cryptoOnMessage gcm (runCryptoWorker gcm initialCryptoState msgs)
        (CMsgIn.decrypt buf)).2 =
      CMsgOut.error "Crypto key not initialized. Call INIT first." := by
  rw [runCryptoWorker_no_valid_init gcm msgs initialCryptoState h]
  rfl

/-- Witness for C9 at a concrete short-seed INIT followed by a DECRYPT. -/
theorem decrypt_before_init_errors_witness :
    noValidInit [CMsgIn.init "short"] = true ∧
    (cryptoOnMessage (fun _ _ _ => Except.error "e")
        (runCryptoWorker (fun _ _ _ => Except.error "e") initialCryptoState
          [CMsgIn.init "short"])
        (CMsgIn.decrypt [0])).2 =
      CMsgOut.error "Crypto key not initialized. Call INIT first." :=
  ⟨by decide,
   decrypt_before_init_errors (fun _ _ _ => Except.error "e")
     [CMsgIn.init "short"] [0] (by decide)⟩

/-- C5: a DECRYPT whose authenticated decryption fails is answered by an
ERROR message carrying a human-readable reason, with the worker state
unchanged and no plaintext ever attached; the handler returns a message
instead of letting the failure escape. -/
theorem decrypt_auth_failure_reports_error (gcm : Gcm)
    (st : CryptoWorkerState) (k : DerivedKey) (buf : Bytes) (pmsg : String)
    (hk : st.cryptoKey = some k)
    (hfail : gcm k (buf.take 12) (buf.drop 12) = Except.error pmsg) :
    cryptoOnMessage gcm st (CMsgIn.decrypt buf) =
      (st, CMsgOut.error
        ("Decryption failed: " ++ pmsg ++ ". Verify seed key is correct.")) ∧
    ∀ pt, (cryptoOnMessage gcm st (CMsgIn.decrypt buf)).2 ≠
      CMsgOut.decryptSuccess pt := by
  have hd : decryptData gcm st buf =
      Except.error
        ("Decryption failed: " ++ pmsg ++ ". Verify seed key is correct.") := by
    unfold decryptData
    simp [hk, hfail]
  constructor
  · simp [cryptoOnMessage, hd]
  · intro pt
    simp [cryptoOnMessage, hd]

/-- Witness for C5 at a concrete state, buffer and failing decryption. -/
theorem decrypt_auth_failure_reports_error_witness :
    (({ seedKey := some seed32,
        cryptoKey := some (pbkdf2Sha256Key seed32 aesSalt) } :
        CryptoWorkerState).cryptoKey =
      some (pbkdf2Sha256Key seed32 aesSalt)) ∧
    cryptoOnMessage (fun _ _ _ => Except.error "OperationError")
        { seedKey := some seed32,
          cryptoKey := some (pbkdf2Sha256Key seed32 aesSalt) }
        (CMsgIn.decrypt [1, 2, 3]) =
      ({ seedKey := some seed32,
         cryptoKey := some (pbkdf2Sha256Key seed32 aesSalt) },
       CMsgOut.error
         ("Decryption failed: " ++ "OperationError" ++
           ". Verify seed key is correct.")) :=
  ⟨rfl,
   (decrypt_auth_failure_reports_error
     (fun _ _ _ => Except.error "OperationError")
     { seedKey := some seed32,
       cryptoKey := some (pbkdf2Sha256Key seed32 aesSalt) }
     (pbkdf2Sha256Key seed32 aesSalt) [1, 2, 3] "OperationError"
     rfl rfl).1⟩

/-- C1 counterexample: INIT with a concrete 32-character seed succeeds, and
the resulting worker state stores the seed string itself in the module
variable seedKey, so the retained state is not only the derived key. -/
theorem seed_retained_counterexample :
    seed32.length = 32 ∧
    initializeCrypto initialCryptoState seed32 =
      Except.ok { seedKey := some seed32
                  cryptoKey := some (pbkdf2Sha256Key seed32 aesSalt) } ∧
    some seed32 ≠ (none : Option String) := by
  refine ⟨by decide, ?_, by simp⟩
  unfold initializeCrypto
  rw [if_neg (by decide)]

/-- C1 (amended): for every seed of length at least 32, key derivation
succeeds and the worker retains both the derived key and the seed string in
its module-level state; the same holds for the stream-worker variant. -/
theorem init_retains_seed_and_key (st : CryptoWorkerState)
    (st2 : StreamWorkerState) (seed : String) (h : 32 ≤ seed.length) :
    initializeCrypto st seed =
      Except.ok { seedKey := some seed
                  cryptoKey := some (pbkdf2Sha256Key seed aesSalt) } ∧
    initializeProcessor st2 seed =
      Except.ok { seedKey := some seed
                  processorKey := some (pbkdf2Sha256Key seed streamSalt) } := by
  have hne : ¬(seed = "" ∨ seed.length < 32) := by
    rintro (h1 | h2)
    · rw [h1] at h
      exact absurd h (by decide)
    · omega
  constructor
  · unfold initializeCrypto
    rw [if_neg hne]
  · unfold initializeProcessor
    rw [if_neg hne]

/-- Witness for C1 at the concrete 32-character seed. -/
theorem init_retains_seed_and_key_witness :
    32 ≤ seed32.length ∧
    (initializeCrypto initialCryptoState seed32 =
      Except.ok { seedKey := some seed32
                  cryptoKey := some (pbkdf2Sha256Key seed32 aesSalt) } ∧
    initializeProcessor initialStreamState seed32 =
      Except.ok { seedKey := some seed32
                  processorKey := some (pbkdf2Sha256Key seed32 streamSalt) }) :=
  ⟨by decide,
   init_retains_seed_and_key initialCryptoState initialStreamState seed32
     (by decide)⟩

/-- C2 counterexample: at the empty seed, initializePlayer still creates the
decryption worker and still issues the network fetch, so the seed violation
does not fail fast without worker or network activity. -/
theorem short_seed_still_starts_worker :
    ("" : String).length < 32 ∧
    (initializePlayer "" true).workerCreated = true ∧
    (initializePlayer "" true).fetchIssued = true :=
  ⟨by decide, rfl, rfl⟩

/-- C2 (amended): for every seed shorter than 32 characters, the orchestrator
still creates the worker, posts INIT with that seed and issues the fetch; the
worker itself rejects the seed with an ERROR reply, and handling that reply
records the reason and invokes the error callback of the caller. -/
theorem short_seed_rejected_by_worker (gcm : Gcm) (seed : String)
    (fetchOk : Bool) (ui : PlayerUi) (h : seed.length < 32) :
    (initializePlayer seed fetchOk).workerCreated = true ∧
    (initializePlayer seed fetchOk).initSent = some seed ∧
    (initializePlayer seed fetchOk).fetchIssued = true ∧
    (streamOnMessage gcm initialStreamState (SMsgIn.init seed)).2 =
      SMsgOut.error "Seed key must be at least 32 characters" ∧
    (handleWorkerMessage ui
        (streamOnMessage gcm initialStreamState (SMsgIn.init seed)).2).errorMsg =
      some "Seed key must be at least 32 characters" ∧
    (handleWorkerMessage ui
        (streamOnMessage gcm initialStreamState
          (SMsgIn.init seed)).2).onErrorCalled = true := by
  have hg : seed = "" ∨ seed.length < 32 := Or.inr h
  have hw : (streamOnMessage gcm initialStreamState (SMsgIn.init seed)).2 =
      SMsgOut.error "Seed key must be at least 32 characters" := by
    simp [streamOnMessage, initializeProcessor, hg]
  exact ⟨rfl, rfl, rfl, hw, by rw [hw]; rfl, by rw [hw]; rfl⟩

/-- Witness for C2 at the empty seed. -/
theorem short_seed_rejected_by_worker_witness :
    ("" : String).length < 32 ∧
    ((initializePlayer "" true).workerCreated = true ∧
    (initializePlayer "" true).initSent = some "" ∧
    (initializePlayer "" true).fetchIssued = true ∧
    (streamOnMessage (fun _ _ _ => Except.error "e") initialStreamState
        (SMsgIn.init "")).2 =
      SMsgOut.error "Seed key must be at least 32 characters" ∧
    (handleWorkerMessage ⟨none, false, false⟩
        (streamOnMessage (fun _ _ _ => Except.error "e") initialStreamState
          (SMsgIn.init "")).2).errorMsg =
      some "Seed key must be at least 32 characters" ∧
    (handleWorkerMessage ⟨none, false, false⟩
        (streamOnMessage (fun _ _ _ => Except.error "e") initialStreamState
          (SMsgIn.init "")).2).onErrorCalled = true) :=
  ⟨by decide,
   short_seed_rejected_by_worker (fun _ _ _ => Except.error "e") "" true
     ⟨none, false, false⟩ (by decide)⟩

/-- C4 at the failing input: a first load fails on the missing master key and
leaves its worker alive with status error; the Retry button then runs
loadAndProcessVideo with no cleanup, so two workers of the same instance are
alive at once.  Reconfiguring through the effect cleanup, by contrast, keeps
exactly one worker alive. -/
theorem retry_leaks_previous_worker :
    (loadAndProcessVideo svpInit false true).status = SvpStatus.error ∧
    (svpRetry (loadAndProcessVideo svpInit false true) false
        true).aliveWorkers.length = 2 ∧
    (svpReconfigure (loadAndProcessVideo svpInit true true) true
        true).aliveWorkers.length = 1 := by
  refine ⟨rfl, rfl, rfl⟩

/-- C8 at the failing input: startPairing invoked from the idle screen sets
the live status to pairing but its handlers capture the stale render value
idle; an unclean close therefore leaves the status at pairing instead of
moving to error, although the same guard fed the live value pairing would
transition to error, and the separate onerror handler does transition. -/
theorem unclean_close_not_detected :
    (startPairingBegin pairInit).1.status = PairStatus.pairing ∧
    (startPairingBegin pairInit).2 = PairStatus.idle ∧
    (wsOnClose (startPairingBegin pairInit).2 false
        (startPairingBegin pairInit).1).status = PairStatus.pairing ∧
    (wsOnClose PairStatus.pairing false
        (startPairingBegin pairInit).1).status = PairStatus.error ∧
    (wsOnError (startPairingBegin pairInit).1).status = PairStatus.error := by
  refine ⟨rfl, rfl, by decide, by decide, rfl⟩

/-- A trace free of b satisfies the precedes scan vacuously. -/
theorem precedes_of_not_mem (a b : Ev) (t : List Ev) (h : b ∉ t) :
    precedes a b t = true := by
  induction t with
  | nil => rfl
  | cons e t ih =>
    have he : ¬(e = b) := fun hh => h (hh ▸ List.mem_cons_self e t)
    by_cases ha : e = a
    · simp only [precedes]
      rw [if_neg he, if_pos ha]
    · simp only [precedes, if_neg he, if_neg ha]
      exact ih fun hm => h (List.mem_cons_of_mem e hm)

/-- A committed trace satisfies the precedes scan. -/
theorem precedes_of_committed (a b : Ev) (t : List Ev)
    (h : committed a b t = true) : precedes a b t = true := by
  induction t with
  | nil => simp [committed] at h
  | cons e t ih =>
    by_cases hb : e = b
    · simp [committed, hb] at h
    · by_cases ha : e = a
      · simp only [precedes]
        rw [if_neg hb, if_pos ha]
      · simp only [committed, if_neg hb, if_neg ha] at h
        simp only [precedes, if_neg hb, if_neg ha]
        exact ih h

/-- Once an a is committed before any b, appending further events keeps it
committed. -/
theorem committed_append (a b : Ev) (t l : List Ev)
    (h : committed a b t = true) : committed a b (t ++ l) = true := by
  induction t with
  | nil => simp [committed] at h
  | cons e t ih =>
    by_cases hb : e = b
    · simp [committed, hb] at h
    · by_cases ha : e = a
      · simp only [List.cons_append, committed]
        rw [if_neg hb, if_pos ha]
      · simp only [committed, if_neg hb, if_neg ha] at h
        simp only [List.cons_append, committed, if_neg hb, if_neg ha]
        exact ih h

/-- Appending an a to a b-free trace commits a before any b. -/
theorem committed_append_self (a b : Ev) (t : List Ev) (hab : a ≠ b)
    (hb : b ∉ t) : committed a b (t ++ [a]) = true := by
  induction t with
  | nil =>
    simp only [List.nil_append, committed]
    rw [if_neg hab]
    simp
  | cons e t ih =>
    have he : ¬(e = b) := fun hh => hb (hh ▸ List.mem_cons_self e t)
    by_cases ha : e = a
    · simp only [List.cons_append, committed]
      rw [if_neg he, if_pos ha]
    · simp only [List.cons_append, committed, if_neg he, if_neg ha]
      exact ih fun hm => hb (List.mem_cons_of_mem e hm)

/-- Appending any event other than a PROCESS posting preserves the invariant
at an unchanged program counter. -/
theorem sysInvAt_extend (m : Nat) (t : List Ev) (e : Ev)
    (he : ¬(e = Ev.sendProcess)) (h : sysInvAt m t) :
    sysInvAt m (t ++ [e]) := by
  unfold sysInvAt at h ⊢
  by_cases hm : m = 0
  · rw [if_pos hm] at h ⊢
    intro hmem
    rcases List.mem_append.mp hmem with h1 | h2
    · exact h h1
    · exact he (List.mem_singleton.mp h2).symm
  · rw [if_neg hm] at h ⊢
    exact committed_append _ _ _ _ h

/-- The scheduling invariant is preserved by every step of the session. -/
theorem sysInv_step (s : Sys) (c : Choice) (h : sysInv s) :
    sysInv (stepC s c) := by
  obtain ⟨m, wq, mq, tr⟩ := s
  cases c with
  | mainStep =>
    match m with
    | 0 =>
      have h0 : Ev.sendProcess ∉ tr := by
        have h2 : sysInvAt 0 tr := h
        unfold sysInvAt at h2
        simpa using h2
      show sysInvAt 1 (tr ++ [Ev.sendInit])
      unfold sysInvAt
      rw [if_neg (by decide : ¬(1 = 0))]
      exact committed_append_self _ _ _ (by decide) h0
    | 1 =>
      have h1 : committed Ev.sendInit Ev.sendProcess tr = true := by
        have h2 : sysInvAt 1 tr := h
        unfold sysInvAt at h2
        simpa using h2
      show sysInvAt 2 (tr ++ [Ev.sendProcess])
      unfold sysInvAt
      rw [if_neg (by decide : ¬(2 = 0))]
      exact committed_append _ _ _ _ h1
    | n + 2 => exact h
  | workerStep =>
    match wq with
    | [] => exact h
    | PMsg.init :: r =>
      show sysInvAt m (tr ++ [Ev.wHandleInit])
      exact sysInvAt_extend m tr _ (by decide) h
    | PMsg.process :: r =>
      show sysInvAt m (tr ++ [Ev.wHandleProcess])
      exact sysInvAt_extend m tr _ (by decide) h
  | deliverStep =>
    match mq with
    | [] => exact h
    | AMsg.initAck :: r =>
      show sysInvAt m (tr ++ [Ev.recvInitAck])
      exact sysInvAt_extend m tr _ (by decide) h
    | AMsg.procResult :: r =>
      show sysInvAt m (tr ++ [Ev.recvProcResult])
      exact sysInvAt_extend m tr _ (by decide) h

/-- The scheduling invariant holds after any schedule from any state that
satisfies it. -/
theorem sysInv_fold (cs : List Choice) (s : Sys) (h : sysInv s) :
    sysInv (cs.foldl stepC s) := by
  induction cs generalizing s with
  | nil => exact h
  | cons c cs ih => exact ih (stepC s c) (sysInv_step s c h)

/-- C3 (amended): under every schedule of a seed-strategy session, the INIT
message is posted to the worker before any PROCESS request is posted. -/
theorem init_sent_before_process_sent (cs : List Choice) :
    precedes Ev.sendInit Ev.sendProcess (execSched cs).trace = true := by
  have h : sysInv (execSched cs) :=
    sysInv_fold cs sysInit (by simp [sysInv, sysInvAt, sysInit])
  have h2 : sysInvAt (execSched cs).mpc (execSched cs).trace := h
  unfold sysInvAt at h2
  by_cases hm : (execSched cs).mpc = 0
  · rw [if_pos hm] at h2
    exact precedes_of_not_mem Ev.sendInit Ev.sendProcess _ h2
  · rw [if_neg hm] at h2
    exact precedes_of_committed Ev.sendInit Ev.sendProcess _ h2

/-- C3 counterexample: a legal schedule of the session in which the fetch
resolves and PROCESS is posted before the INIT acknowledgment is delivered
back, so the INIT_SUCCESS reception does not precede the PROCESS send. -/
theorem ack_not_awaited :
    (execSched [Choice.mainStep, Choice.workerStep, Choice.mainStep,
        Choice.deliverStep]).trace =
      [Ev.sendInit, Ev.wHandleInit, Ev.sendProcess, Ev.recvInitAck] ∧
    precedes Ev.recvInitAck Ev.sendProcess
      (execSched [Choice.mainStep, Choice.workerStep, Choice.mainStep,
          Choice.deliverStep]).trace = false := by
  refine ⟨rfl, rfl⟩
